import Mathlib

/-!
Verification of the bundle resolution and generation engine of the brunch
asset-bundling pipeline, against its natural-language specification.

The embedding below follows the JavaScript sources:
* the ordering engine (`sortByConfig` in the generate module),
* the concatenator (`concat` and its per-file `processor`),
* the optimizer chain (`runOptimizer`, `optimize`),
* join-configuration resolution (`createJoinConfig` in lib/config/index.js),
* the worker job protocol (`processMsg` and the message handler in the
  worker entry point).

External collaborators that are not part of the repository sources
(the anysort/anymatch matching library, the deppack module packer, the
source-map library) are modelled at their boundary, following the words
of the specification; each such definition carries a doc comment saying
so.  Machine-level JavaScript behaviours (synchronous exceptions versus
rejected promises) are made explicit in the embedding.
-/

/-- The ordering criteria handed to the ordering engine, mirroring the
object built inside `sortByConfig`: `config.before`, `config.after`,
`config.joinToValue` (the explicit order of an array-valued join rule),
`config.bower` (third-party package order) and `config.vendorConvention`
(the vendor-classification predicate).  The `OrderingSpec` of the spec. -/
structure OrderingSpec where
  before : List String
  after : List String
  joinToValue : List String
  bower : List String
  vendorConvention : String → Bool

/-- Modelled from the spec: the per-group ordering performed by the external
`anysort` library ("paths in `before` are placed first, in `before`'s listed
order").  `bucketSort crit l` stably orders `l` by the index of the first
entry of `crit` that a path equals; paths matching no entry keep their
relative order at the end.  This is the listed-order sort the spec ascribes
to the `before`, `after`, explicit-order and package-order groups. -/
def bucketSort (crit : List String) (l : List String) : List String :=
  match crit with
  | [] => l
  | c :: rest => l.filter (fun p => p == c) ++ bucketSort rest (l.filter (fun p => !(p == c)))

/-- Paths matching the first criterion, `config.before` (first-match group 0). -/
def beforeGroup (spec : OrderingSpec) (files : List String) : List String :=
  files.filter fun p => spec.before.contains p

/-- Paths left over after the `before` group is extracted. -/
def nonBefore (spec : OrderingSpec) (files : List String) : List String :=
  files.filter fun p => !spec.before.contains p

/-- Paths matching the second criterion, `config.after` (first-match group 1). -/
def afterGroup (spec : OrderingSpec) (files : List String) : List String :=
  (nonBefore spec files).filter fun p => spec.after.contains p

/-- Paths left over after the `before` and `after` groups are extracted. -/
def rest1 (spec : OrderingSpec) (files : List String) : List String :=
  (nonBefore spec files).filter fun p => !spec.after.contains p

/-- Paths matching the third criterion, `config.joinToValue` (group 2). -/
def joinToGroup (spec : OrderingSpec) (files : List String) : List String :=
  (rest1 spec files).filter fun p => spec.joinToValue.contains p

/-- Paths left over after groups 0, 1 and 2 are extracted. -/
def rest2 (spec : OrderingSpec) (files : List String) : List String :=
  (rest1 spec files).filter fun p => !spec.joinToValue.contains p

/-- Paths matching the fourth criterion, `config.bower` (group 3). -/
def bowerGroup (spec : OrderingSpec) (files : List String) : List String :=
  (rest2 spec files).filter fun p => spec.bower.contains p

/-- Paths left over after groups 0 to 3 are extracted. -/
def rest3 (spec : OrderingSpec) (files : List String) : List String :=
  (rest2 spec files).filter fun p => !spec.bower.contains p

/-- Paths classified vendor by `config.vendorConvention` (group 4). -/
def vendorGroup (spec : OrderingSpec) (files : List String) : List String :=
  (rest3 spec files).filter fun p => spec.vendorConvention p

/-- Paths matching none of the five criteria: the remainder group (group 5). -/
def remainderGroup (spec : OrderingSpec) (files : List String) : List String :=
  (rest3 spec files).filter fun p => !spec.vendorConvention p

/-- The ordering engine `sortByConfig(files, config)` of the generate module.
A non-object `config` (JavaScript `config !== Object(config)`, e.g. `null`
or `undefined`) is modelled as `none` and returns the input unchanged.
Otherwise the call `anysort.grouped(files, criteria, [0, 2, 3, 4, 5, 1])`
partitions the paths into the five criterion groups (first match wins) plus
the remainder, and concatenates them in the order
before, joinToValue, bower, vendor, remainder, after.
Modelled from the spec: `anysort.grouped` itself is an external library;
its grouped partition-then-concatenate behaviour and per-group listed-order
sorting follow spec section 4.2, with path matching modelled as equality. -/
def sortByConfig (files : List String) : Option OrderingSpec → List String
  | none => files
  | some spec =>
      bucketSort spec.before (beforeGroup spec files) ++
      bucketSort spec.joinToValue (joinToGroup spec files) ++
      bucketSort spec.bower (bowerGroup spec files) ++
      vendorGroup spec files ++
      remainderGroup spec files ++
      bucketSort spec.after (afterGroup spec files)

/-- Position of the first entry of `order` that `p` equals (the listed-order
rank); paths listed nowhere rank after all listed ones. -/
def rankIn (order : List String) (p : String) : Nat :=
  match order with
  | [] => 0
  | c :: rest => if p == c then 0 else rankIn rest p + 1

/-- One character of the JavaScript `\s` class, as used by the statement
separator regex `/;\s*$/` in the concatenator's per-file processor. -/
def isJsWhitespace (c : Char) : Bool :=
  let n := c.toNat
  n == 9 || n == 10 || n == 11 || n == 12 || n == 13 || n == 32 || n == 160 ||
  n == 0x1680 || (0x2000 ≤ n && n ≤ 0x200A) || n == 0x2028 || n == 0x2029 ||
  n == 0x202F || n == 0x205F || n == 0x3000 || n == 0xFEFF

/-- The regex test `/;\s*$/.test(data)`: the string ends with a semicolon
followed only by whitespace (without the multiline flag, `$` anchors at the
very end of the string). -/
def endsInSeparator (s : String) : Bool :=
  match (s.data.reverse.dropWhile isJsWhitespace) with
  | [] => false
  | c :: _ => c == ';'

/-- A generated file as seen by `concat`: `node` is the text its source-map
node contributes to the output, `data` its compiled content, `source` its
original content, `isIdentity` the node's identity flag (the processor tests
the separator on `data` for identity nodes and on `source` otherwise), and
`isModule` whether the file is wrapped as a module. -/
structure GenFile where
  path : String
  node : String
  data : String
  source : String
  isIdentity : Bool
  isModule : Bool

/-- The per-file `processor` closure of `concat`: it appends the file's
source node to the output and, for scripts whose content does not already
end in a statement separator, appends one. -/
def processor (isJs : Bool) (f : GenFile) : String :=
  let d := if f.isIdentity then f.data else f.source
  if isJs && !endsInSeparator d then f.node ++ ";" else f.node

/-- The text of `addRequire`: a trailing load invocation for one
auto-required path. -/
def addRequireStatement (req : String) : String :=
  let q := String.singleton (Char.ofNat 39)
  "require(" ++ q ++ req ++ q ++ ");"

/-- The concatenator `concat` at the level of output text.  `definition` is
`some` of the module-definition preamble when a definition function is
supplied (`isJs = !!definitionFn`), `none` for non-script bundles.  For
scripts, files are partitioned into module files and non-module files, the
definition is emitted first, then module files, then non-module files, then
the auto-require statements.  The npm-enabled path hands module files to the
external deppack packer; this model covers the engine with `config.npm.enabled`
false, where module files are processed by the same `processor`. -/
def concat (files : List GenFile) (definition : Option String)
    (autoRequire : List String) : String :=
  match definition with
  | some defn =>
      let moduleFiles := files.filter fun f => f.isModule
      let nonModuleFiles := files.filter fun f => !f.isModule
      defn ++ String.join (moduleFiles.map (processor true)) ++
        String.join (nonModuleFiles.map (processor true)) ++
        String.join (autoRequire.map addRequireStatement)
  | none => String.join (files.map (processor false))

/-- A contributing source file reference, used to populate the composed
map's sources content (`prepareSourceMap`). -/
structure SourceFileRef where
  path : String
  source : String

/-- A composed source map after `prepareSourceMap`: the optimizer-produced
payload plus the sources content registered from the contributing files. -/
structure ComposedMap where
  payload : String
  sourcesContent : List (String × String)

/-- The pipeline value threaded through the optimizer chain:
`{data, path, map, sourceFiles, code}` with `code` mirroring `data`. -/
structure PipelineResult where
  data : String
  path : String
  map : Option ComposedMap
  sourceFiles : List SourceFileRef
  code : String

/-- What an optimizer's `optimize` resolves to: new data and an optional
new map. -/
structure OptimizedOutput where
  data : String
  map : Option String

/-- An optimizer plugin as consumed by the chain: its registered name and
its asynchronous `optimize` operation, whose promise either fulfils with
an `OptimizedOutput` or rejects with an error message. -/
structure Optimizer where
  brunchPluginName : String
  optimize : PipelineResult → Except String OptimizedOutput

/-- `prepareSourceMap(optimizedMap, sourceFiles)`: `none` propagates as
`none`; otherwise the optimizer's map is re-generated with the sources
content of every contributing file registered on it. -/
def prepareSourceMap (optimizedMap : Option String)
    (sourceFiles : List SourceFileRef) : Option ComposedMap :=
  optimizedMap.map fun payload =>
    { payload := payload
      sourcesContent := sourceFiles.map fun f => (f.path, f.source) }

/-- An error escaping the generation pipeline: either the guard for a
missing chain value (`OPTIMIZER_INVALID`) or a wrapped optimizer failure. -/
inductive GenerateError
  | optimizerInvalid (optimizerName : String)
  | optimizeFailed (optimizerName : String) (path : String) (message : String)
deriving DecidableEq

/-- Modelled from the spec: `formatOptimizerError` lives in the helpers
module, which is absent from the sources; per spec section 4.4 it re-wraps
an optimizer failure "into an error that names the offending optimizer and
the output path". -/
def formatOptimizerError (optimizerName : String) (message : String)
    (path : String) : GenerateError :=
  GenerateError.optimizeFailed optimizerName path message

/-- One optimizer stage, `runOptimizer(optimizer)(genFile)`: a missing
`genFile` is a programmer error (`OPTIMIZER_INVALID`); otherwise the
optimizer runs on the previous stage's value and the new `PipelineResult`
takes the optimizer's `data`, keeps the previous `path` and `sourceFiles`,
and takes the prepared new map when the optimizer returned one, falling
back to the previous stage's map (`prepareSourceMap(...) || unoptMap`).
A rejection is re-wrapped by `formatOptimizerError`. -/
def runOptimizer (optimizer : Optimizer) :
    Option PipelineResult → Except GenerateError PipelineResult
  | none => Except.error (GenerateError.optimizerInvalid optimizer.brunchPluginName)
  | some genFile =>
      match optimizer.optimize genFile with
      | Except.ok optimized =>
          Except.ok
            { data := optimized.data
              path := genFile.path
              map :=
                match prepareSourceMap optimized.map genFile.sourceFiles with
                | some m => some m
                | none => genFile.map
              sourceFiles := genFile.sourceFiles
              code := optimized.data }
      | Except.error e =>
          Except.error (formatOptimizerError optimizer.brunchPluginName e genFile.path)

/-- Modelled from the spec: `promiseReduce` (helpers module, absent from the
sources) chains the stages strictly sequentially, stage n+1 starting only
when stage n has resolved; a rejection short-circuits the rest of the
chain. -/
def promiseReduce {α β ε : Type} (items : List α) (f : α → β → Except ε β)
    (initial : β) : Except ε β :=
  items.foldl (fun acc x => acc.bind (f x)) (Except.ok initial)

/-- The optimizer chain `optimize(data, map, path, optimizers, sourceFiles)`:
the initial `PipelineResult` reduced through `runOptimizer` for every
optimizer in registration order. -/
def optimize (data : String) (map : Option ComposedMap) (path : String)
    (optimizers : List Optimizer) (sourceFiles : List SourceFileRef) :
    Except GenerateError PipelineResult :=
  promiseReduce optimizers (fun o g => runOptimizer o (some g))
    { data := data, path := path, map := map, sourceFiles := sourceFiles, code := data }

/-- The outcome of calling a synchronous JavaScript function: it either
returns a value or throws. -/
inductive SyncResult (α : Type)
  | thrown (message : String)
  | value (a : α)
deriving DecidableEq

/-- One job kind registered in the worker's `jobs` table
(`CompileJob` or `OptimizeJob`).  Modelled from the spec: the two job
classes live in the pipeline and generate modules' exports, which are
absent from the sources; per spec section 4.6 `deserialize` rebuilds the
job's hash with the worker's local plugin set (a synchronous call, so a
failure is a synchronous throw) and `work` runs the job, returning a
promise that fulfils with a result or rejects with an error. -/
structure WorkerJobKind where
  deserialize : String → SyncResult String
  work : String → Except String String

/-- A job message `{type, data: {hash}}` received by the worker. -/
structure WorkerMsg where
  type : String
  hashData : String

/-- A message the worker can send back: `{result}` or `{error: message}`. -/
inductive WorkerResponse
  | result (r : String)
  | error (message : String)
deriving DecidableEq

/-- What one invocation of the worker's message handler does: the list of
response messages it sends (in order) and whether an uncaught synchronous
exception escaped the handler, crashing the worker process. -/
structure HandlerOutcome where
  sent : List WorkerResponse
  crashed : Bool
deriving DecidableEq

/-- The worker's `processMsg`: look the job kind up in the `jobs` table,
deserialize the hash with the local plugin set, and start the job's work.
The lookup and `deserialize` run synchronously, so their failures are
synchronous throws; on success the value is the promise returned by
`work`. -/
def processMsg (jobs : String → Option WorkerJobKind) (msg : WorkerMsg) :
    SyncResult (Except String String) :=
  match jobs msg.type with
  | none => SyncResult.thrown "cannot read deserialize of undefined"
  | some job =>
      match job.deserialize msg.hashData with
      | SyncResult.thrown e => SyncResult.thrown e
      | SyncResult.value hash => SyncResult.value (job.work hash)

/-- The worker's message handler
`processMsg(msg).then(result => send({result}), error => send({error}))`:
the two `then` callbacks each send exactly one message, covering the
promise's fulfilment and rejection; a synchronous throw out of
`processMsg` is caught by neither callback, so no message is sent and the
exception escapes the handler. -/
def onMessage (jobs : String → Option WorkerJobKind) (msg : WorkerMsg) :
    HandlerOutcome :=
  match processMsg jobs msg with
  | SyncResult.thrown _ => { sent := [], crashed := true }
  | SyncResult.value (Except.ok r) => { sent := [WorkerResponse.result r], crashed := false }
  | SyncResult.value (Except.error e) => { sent := [WorkerResponse.error e], crashed := false }

/-- A normalized file matcher.  Modelled from the spec: the external
`anymatch` library turns a string glob, path list or custom predicate into
a uniform boolean test; only that resolved test capability matters here. -/
structure Matcher where
  test : String → Bool

/-- A raw `joinTo` value (or one entry point's configuration): either a
single output path (every matching file joins it) or a table from output
path to matcher. -/
inductive JoinToCfg
  | single (path : String)
  | table (entries : List (String × Matcher))

/-- One type's entry of `config.files` as consumed by `createJoinConfig`:
an optional `joinTo` and optional `entryPoints` (a table from entry-point
target to its join configuration).  A missing key is `none`. -/
structure FileTypeCfg where
  joinTo : Option JoinToCfg
  entryPoints : Option (List (String × JoinToCfg))

/-- `config.files` as an insertion-ordered table from type name
(javascripts, stylesheets, templates, ...) to that type's configuration;
JavaScript object keys are unique and iterate in insertion order. -/
abbrev CfgFiles : Type := List (String × FileTypeCfg)

/-- The JavaScript `Object.keys` of a raw join configuration value: the
output paths of a table, or the character indices of a plain string. -/
def joinToKeys : JoinToCfg → List String
  | JoinToCfg.single path => (List.range path.length).map (fun i => toString i)
  | JoinToCfg.table entries => entries.map (fun e => e.1)

/-- A warning logged during join-configuration resolution. -/
inductive JoinWarning
  | entryPointsWrongType (typeName : String)
  | entryPointNotWatched (target : String)
  | joinToAlreadyDefined (typeName : String) (target : String)
  | outputAlreadyClaimed (path : String) (typeName : String) (target : String)
deriving DecidableEq

/-- `normalizeJoinConfig(joinTo)`: a string becomes a one-entry table whose
matcher always succeeds, a table keeps its entries (each matcher resolved
by the external anymatch), and a missing value becomes the empty table. -/
def normalizeJoinConfig : Option JoinToCfg → List (String × Matcher)
  | some (JoinToCfg.single path) => [(path, { test := fun _ => true })]
  | some (JoinToCfg.table entries) => entries
  | none => []

/-- Models the JavaScript `startsWith` used by the entry-point watched-path
check (`String.prototype.startsWith`, executable in the kernel). -/
def charsPrefix : List Char → List Char → Bool
  | [], _ => true
  | _ :: _, [] => false
  | a :: as, b :: bs => a == b && charsPrefix as bs

/-- `target.startsWith(path + "/")` on strings. -/
def startsWithStr (s pre : String) : Bool :=
  charsPrefix pre.data s.data

/-- The first mutation step of `createJoinConfig`: when the javascripts
type has a `joinTo` key, a templates entry is created if missing and, when
the templates entry has no `joinTo` key of its own, it receives the
javascripts `joinTo`. -/
def inheritTemplatesJoinTo (cfgFiles : CfgFiles) : CfgFiles :=
  match cfgFiles.lookup "javascripts" with
  | some jsCfg =>
      match jsCfg.joinTo with
      | some jt =>
          let withTemplates : CfgFiles :=
            if (cfgFiles.lookup "templates").isSome then cfgFiles
            else cfgFiles ++ [("templates", { joinTo := none, entryPoints := none })]
          withTemplates.map fun tc =>
            if tc.1 == "templates" && tc.2.joinTo.isNone then
              (tc.1, { joinTo := some jt, entryPoints := tc.2.entryPoints })
            else tc
      | none => cfgFiles
  | none => cfgFiles

/-- The `joinConfig` accumulator of `createJoinConfig`: each type's
normalized `joinTo` table, in type order. -/
def buildJoinConfig (cfgFiles : CfgFiles) : List (String × List (String × Matcher)) :=
  cfgFiles.map fun tc => (tc.1, normalizeJoinConfig tc.2.joinTo)

/-- The inner `Object.keys(normalizedEntryCfg).forEach` of
`createJoinConfig`: walk one entry point's normalized output paths in
order; a path already claimed in `outPaths` is deleted from the entry's
table and warned about, otherwise it is pushed onto `outPaths`.
Returns the kept entries, the grown `outPaths` and the grown warning
log. -/
def claimPaths (typeName target : String) :
    List (String × Matcher) → List String → List JoinWarning →
    List (String × Matcher) × List String × List JoinWarning
  | [], outPaths, warnings => ([], outPaths, warnings)
  | e :: rest, outPaths, warnings =>
      if outPaths.contains e.1 then
        claimPaths typeName target rest outPaths
          (warnings ++ [JoinWarning.outputAlreadyClaimed e.1 typeName target])
      else
        let r := claimPaths typeName target rest (outPaths ++ [e.1]) warnings
        (e :: r.1, r.2.1, r.2.2)

/-- Processing of one entry-point target inside `createJoinConfig`:
the watched-path usability check only warns; a target one of whose raw
output keys is already present in the type's own `joinTo` table is
rejected whole with a warning; otherwise the normalized entry
configuration has its output paths claimed one by one and the target is
added to the type's resolved entry points. -/
def processTarget (watched : List String) (typeJoinCfg : List (String × Matcher))
    (typeName : String)
    (st : List (String × List (String × Matcher)) × List String × List JoinWarning)
    (targetEntry : String × JoinToCfg) :
    List (String × List (String × Matcher)) × List String × List JoinWarning :=
  let target := targetEntry.1
  let entryCfg := targetEntry.2
  let warnings :=
    if watched.any (fun path => startsWithStr target (path ++ "/")) then st.2.2
    else st.2.2 ++ [JoinWarning.entryPointNotWatched target]
  let alreadyDefined :=
    (joinToKeys entryCfg).any fun out => (typeJoinCfg.map (fun e => e.1)).contains out
  if alreadyDefined then
    (st.1, st.2.1, warnings ++ [JoinWarning.joinToAlreadyDefined typeName target])
  else
    let r := claimPaths typeName target (normalizeJoinConfig (some entryCfg)) st.2.1 warnings
    (st.1 ++ [(target, r.1)], r.2.1, r.2.2)

/-- The resolved entry-points mapping: per type, a table from entry key to
a table from output path to matcher; the default `joinTo` appears under
the special entry key `*`. -/
abbrev EntryPointsCfg : Type :=
  List (String × List (String × List (String × Matcher)))

/-- The per-type pass of `createJoinConfig`: every type first receives its
`*` point carrying its normalized `joinTo`; a type without `entryPoints`
contributes nothing more; a non-javascripts type with `entryPoints` only
logs a warning; the javascripts entry points are processed in declaration
order against the shared `outPaths` claim list. -/
def processAllTypes (watched : List String)
    (joinConfig : List (String × List (String × Matcher)))
    (cfgFiles : CfgFiles) : EntryPointsCfg × List JoinWarning :=
  let step := fun (st : EntryPointsCfg × List String × List JoinWarning)
      (tc : String × FileTypeCfg) =>
    let typeName := tc.1
    let basePoint : List (String × List (String × Matcher)) :=
      match joinConfig.lookup typeName with
      | some sub => [("*", sub)]
      | none => []
    match tc.2.entryPoints with
    | none => (st.1 ++ [(typeName, basePoint)], st.2.1, st.2.2)
    | some targets =>
        if typeName == "javascripts" then
          let typeJoinCfg := (joinConfig.lookup typeName).getD []
          let r := targets.foldl (processTarget watched typeJoinCfg typeName)
            ([], st.2.1, st.2.2)
          (st.1 ++ [(typeName, basePoint ++ r.1)], r.2.1, r.2.2)
        else
          (st.1 ++ [(typeName, basePoint)], st.2.1,
            st.2.2 ++ [JoinWarning.entryPointsWrongType typeName])
  let r := cfgFiles.foldl step ([], [], [])
  (r.1, r.2.2)

/-- `createJoinConfig(cfgFiles, paths)` of lib/config/index.js: the
templates inheritance mutation, then the normalized `joinConfig`, then the
entry-points resolution with conflict handling.  The result is the frozen
entry-points mapping together with the warnings logged along the way;
resolution itself never fails. -/
def createJoinConfig (cfgFiles : CfgFiles) (watched : List String) :
    EntryPointsCfg × List JoinWarning :=
  let cfg2 := inheritTemplatesJoinTo cfgFiles
  processAllTypes watched (buildJoinConfig cfg2) cfg2

/-- The output-path keys of one resolved entry point: look a type and an
entry key up in the resolved mapping and return the claimed output paths. -/
def epOutKeys (resolved : EntryPointsCfg) (typeName target : String) :
    Option (List String) :=
  ((resolved.lookup typeName).bind fun sub => sub.lookup target).map fun entries =>
    entries.map fun e => e.1

/-- Concrete ordering criteria for the end-to-end scenario of the spec:
`before: ['b.js']`, everything else empty. -/
def scenarioSpec : OrderingSpec :=
  { before := ["b.js"], after := [], joinToValue := [], bower := [],
    vendorConvention := fun _ => false }

/-- Overlapping criteria used to probe the first-match partition:
the same path is listed both in `before` and in `after`. -/
def overlapSpec : OrderingSpec :=
  { before := ["x"], after := ["x"], joinToValue := [], bower := [],
    vendorConvention := fun _ => false }

theorem contains_eq_true_of_mem {l : List String} {a : String} (h : a ∈ l) :
    l.contains a = true :=
  List.elem_iff.mpr h

theorem contains_eq_false_of_not_mem {l : List String} {a : String} (h : a ∉ l) :
    l.contains a = false := by
  cases hc : l.contains a with
  | false => rfl
  | true => exact absurd (List.elem_iff.mp hc) h

theorem mem_of_contains_eq_true {l : List String} {a : String}
    (h : l.contains a = true) : a ∈ l :=
  List.elem_iff.mp h

theorem filter_eq_self_of {α : Type} {p : α → Bool} {l : List α}
    (h : ∀ x ∈ l, p x = true) : l.filter p = l :=
  List.filter_eq_self.mpr h

theorem filter_eq_nil_of {α : Type} {p : α → Bool} {l : List α}
    (h : ∀ x ∈ l, p x = false) : l.filter p = [] :=
  List.filter_eq_nil_iff.mpr fun a ha => by simp [h a ha]

theorem bucketSort_perm (crit l : List String) : List.Perm (bucketSort crit l) l := by
  induction crit generalizing l with
  | nil => exact List.Perm.refl l
  | cons c rest ih =>
      exact List.Perm.trans ((ih _).append_left _) (List.filter_append_perm _ l)

theorem mem_of_mem_bucketSort {crit l : List String} {x : String}
    (h : x ∈ bucketSort crit l) : x ∈ l :=
  (bucketSort_perm crit l).mem_iff.mp h

theorem bucketSort_idem (crit l : List String) :
    bucketSort crit (bucketSort crit l) = bucketSort crit l := by
  induction crit generalizing l with
  | nil => rfl
  | cons c rest ih =>
      show (l.filter (fun p => p == c) ++ bucketSort rest (l.filter (fun p => !(p == c)))).filter
            (fun p => p == c) ++
          bucketSort rest
            ((l.filter (fun p => p == c) ++
              bucketSort rest (l.filter (fun p => !(p == c)))).filter (fun p => !(p == c))) =
          l.filter (fun p => p == c) ++ bucketSort rest (l.filter (fun p => !(p == c)))
      rw [List.filter_append, List.filter_append,
        filter_eq_self_of (fun x hx => (List.mem_filter.mp hx).2),
        filter_eq_nil_of (l := bucketSort rest (l.filter (fun p => !(p == c))))
          (fun x hx => by
            have hx2 := (List.mem_filter.mp (mem_of_mem_bucketSort hx)).2
            cases hxc : (x == c) with
            | false => rfl
            | true => rw [hxc] at hx2; simp at hx2),
        filter_eq_nil_of (l := l.filter (fun p => p == c))
          (fun x hx => by
            have hx2 := (List.mem_filter.mp hx).2
            simpa using hx2),
        filter_eq_self_of (l := bucketSort rest (l.filter (fun p => !(p == c))))
          (fun x hx => (List.mem_filter.mp (mem_of_mem_bucketSort hx)).2)]
      rw [List.append_nil, List.nil_append, ih]

theorem sortByConfig_perm_aux (spec : OrderingSpec) (files : List String) :
    List.Perm (sortByConfig files (some spec)) files := by
  have p0 := bucketSort_perm spec.before (beforeGroup spec files)
  have p2 := bucketSort_perm spec.joinToValue (joinToGroup spec files)
  have p3 := bucketSort_perm spec.bower (bowerGroup spec files)
  have p1 := bucketSort_perm spec.after (afterGroup spec files)
  have e0 : sortByConfig files (some spec) =
      bucketSort spec.before (beforeGroup spec files) ++
        (bucketSort spec.joinToValue (joinToGroup spec files) ++
          (bucketSort spec.bower (bowerGroup spec files) ++
            (vendorGroup spec files ++
              (remainderGroup spec files ++ bucketSort spec.after (afterGroup spec files))))) := by
    simp [sortByConfig, List.append_assoc]
  have step1 :
      List.Perm (sortByConfig files (some spec))
        (beforeGroup spec files ++ (joinToGroup spec files ++ (bowerGroup spec files ++
          (vendorGroup spec files ++ (remainderGroup spec files ++ afterGroup spec files))))) := by
    rw [e0]
    exact p0.append (p2.append (p3.append ((List.Perm.refl (vendorGroup spec files)).append
      ((List.Perm.refl (remainderGroup spec files)).append p1))))
  have h45 : List.Perm (vendorGroup spec files ++ remainderGroup spec files) (rest3 spec files) :=
    List.filter_append_perm _ _
  have h4 :
      List.Perm (vendorGroup spec files ++ (remainderGroup spec files ++ afterGroup spec files))
        (rest3 spec files ++ afterGroup spec files) := by
    rw [← List.append_assoc]
    exact h45.append_right _
  have h3 :
      List.Perm (bowerGroup spec files ++ (vendorGroup spec files ++
          (remainderGroup spec files ++ afterGroup spec files)))
        (rest2 spec files ++ afterGroup spec files) := by
    refine List.Perm.trans ((h4).append_left _) ?_
    rw [← List.append_assoc]
    exact (List.filter_append_perm _ _).append_right _
  have h2 :
      List.Perm (joinToGroup spec files ++ (bowerGroup spec files ++ (vendorGroup spec files ++
          (remainderGroup spec files ++ afterGroup spec files))))
        (rest1 spec files ++ afterGroup spec files) := by
    refine List.Perm.trans ((h3).append_left _) ?_
    rw [← List.append_assoc]
    exact (List.filter_append_perm _ _).append_right _
  have h1 :
      List.Perm (rest1 spec files ++ afterGroup spec files) (nonBefore spec files) :=
    List.Perm.trans List.perm_append_comm (List.filter_append_perm _ _)
  have h0 :
      List.Perm (beforeGroup spec files ++ nonBefore spec files) files :=
    List.filter_append_perm _ _
  exact step1.trans (((h2.trans h1).append_left _).trans h0)

/-- C2.  The ordering function returns a permutation of its input: the
output has the same length as the input and every path occurs in the
output exactly as often as in the input (in particular exactly once when
the input lists it once). -/
theorem sortByConfig_permutation (files : List String) (cfg : Option OrderingSpec) :
    List.Perm (sortByConfig files cfg) files ∧
    (sortByConfig files cfg).length = files.length ∧
    ∀ p : String, (sortByConfig files cfg).count p = files.count p := by
  cases cfg with
  | none => exact ⟨List.Perm.refl _, rfl, fun _ => rfl⟩
  | some spec =>
      have h := sortByConfig_perm_aux spec files
      exact ⟨h, h.length_eq, fun p => h.count_eq p⟩

/-- C10.  When the ordering configuration is not an object (JavaScript
`null`, `undefined` or any primitive, modelled as `none`), `sortByConfig`
returns the input file list itself, unchanged. -/
theorem sortByConfig_non_object (files : List String) :
    sortByConfig files none = files :=
  rfl

theorem bnot_eq_true_of_eq_false {b : Bool} (h : b = false) : (!b) = true := by
  rw [h]; rfl

theorem bnot_eq_false_of_eq_true {b : Bool} (h : b = true) : (!b) = false := by
  rw [h]; rfl

theorem sortByConfig_eq (spec : OrderingSpec) (files : List String) :
    sortByConfig files (some spec) =
      bucketSort spec.before (beforeGroup spec files) ++
        (bucketSort spec.joinToValue (joinToGroup spec files) ++
          (bucketSort spec.bower (bowerGroup spec files) ++
            (vendorGroup spec files ++
              (remainderGroup spec files ++ bucketSort spec.after (afterGroup spec files))))) := by
  simp [sortByConfig, List.append_assoc]

theorem mem_beforeGroup_before {spec : OrderingSpec} {files : List String} {x : String}
    (h : x ∈ beforeGroup spec files) : spec.before.contains x = true :=
  (List.mem_filter.mp h).2

theorem mem_nonBefore_before {spec : OrderingSpec} {files : List String} {x : String}
    (h : x ∈ nonBefore spec files) : spec.before.contains x = false := by
  have h2 := (List.mem_filter.mp h).2
  simp at h2
  exact contains_eq_false_of_not_mem h2

theorem mem_afterGroup_facts {spec : OrderingSpec} {files : List String} {x : String}
    (h : x ∈ afterGroup spec files) :
    spec.before.contains x = false ∧ spec.after.contains x = true :=
  ⟨mem_nonBefore_before (List.mem_filter.mp h).1, (List.mem_filter.mp h).2⟩

theorem mem_rest1_facts {spec : OrderingSpec} {files : List String} {x : String}
    (h : x ∈ rest1 spec files) :
    spec.before.contains x = false ∧ spec.after.contains x = false := by
  have h2 := (List.mem_filter.mp h).2
  simp at h2
  exact ⟨mem_nonBefore_before (List.mem_filter.mp h).1, contains_eq_false_of_not_mem h2⟩

theorem mem_joinToGroup_facts {spec : OrderingSpec} {files : List String} {x : String}
    (h : x ∈ joinToGroup spec files) :
    spec.before.contains x = false ∧ spec.after.contains x = false ∧
      spec.joinToValue.contains x = true :=
  ⟨(mem_rest1_facts (List.mem_filter.mp h).1).1,
    (mem_rest1_facts (List.mem_filter.mp h).1).2, (List.mem_filter.mp h).2⟩

theorem mem_rest2_facts {spec : OrderingSpec} {files : List String} {x : String}
    (h : x ∈ rest2 spec files) :
    spec.before.contains x = false ∧ spec.after.contains x = false ∧
      spec.joinToValue.contains x = false := by
  have h2 := (List.mem_filter.mp h).2
  simp at h2
  exact ⟨(mem_rest1_facts (List.mem_filter.mp h).1).1,
    (mem_rest1_facts (List.mem_filter.mp h).1).2, contains_eq_false_of_not_mem h2⟩

theorem mem_bowerGroup_facts {spec : OrderingSpec} {files : List String} {x : String}
    (h : x ∈ bowerGroup spec files) :
    spec.before.contains x = false ∧ spec.after.contains x = false ∧
      spec.joinToValue.contains x = false ∧ spec.bower.contains x = true :=
  ⟨(mem_rest2_facts (List.mem_filter.mp h).1).1,
    (mem_rest2_facts (List.mem_filter.mp h).1).2.1,
    (mem_rest2_facts (List.mem_filter.mp h).1).2.2, (List.mem_filter.mp h).2⟩

theorem mem_rest3_facts {spec : OrderingSpec} {files : List String} {x : String}
    (h : x ∈ rest3 spec files) :
    spec.before.contains x = false ∧ spec.after.contains x = false ∧
      spec.joinToValue.contains x = false ∧ spec.bower.contains x = false := by
  have h2 := (List.mem_filter.mp h).2
  simp at h2
  exact ⟨(mem_rest2_facts (List.mem_filter.mp h).1).1,
    (mem_rest2_facts (List.mem_filter.mp h).1).2.1,
    (mem_rest2_facts (List.mem_filter.mp h).1).2.2, contains_eq_false_of_not_mem h2⟩

theorem mem_vendorGroup_facts {spec : OrderingSpec} {files : List String} {x : String}
    (h : x ∈ vendorGroup spec files) :
    spec.before.contains x = false ∧ spec.after.contains x = false ∧
      spec.joinToValue.contains x = false ∧ spec.bower.contains x = false ∧
      spec.vendorConvention x = true :=
  ⟨(mem_rest3_facts (List.mem_filter.mp h).1).1,
    (mem_rest3_facts (List.mem_filter.mp h).1).2.1,
    (mem_rest3_facts (List.mem_filter.mp h).1).2.2.1,
    (mem_rest3_facts (List.mem_filter.mp h).1).2.2.2, (List.mem_filter.mp h).2⟩

theorem mem_remainderGroup_facts {spec : OrderingSpec} {files : List String} {x : String}
    (h : x ∈ remainderGroup spec files) :
    spec.before.contains x = false ∧ spec.after.contains x = false ∧
      spec.joinToValue.contains x = false ∧ spec.bower.contains x = false ∧
      spec.vendorConvention x = false := by
  have h2 := (List.mem_filter.mp h).2
  simp at h2
  exact ⟨(mem_rest3_facts (List.mem_filter.mp h).1).1,
    (mem_rest3_facts (List.mem_filter.mp h).1).2.1,
    (mem_rest3_facts (List.mem_filter.mp h).1).2.2.1,
    (mem_rest3_facts (List.mem_filter.mp h).1).2.2.2, h2⟩

theorem beforeGroup_out (spec : OrderingSpec) (files : List String) :
    beforeGroup spec (sortByConfig files (some spec)) =
      bucketSort spec.before (beforeGroup spec files) := by
  show (sortByConfig files (some spec)).filter (fun p => spec.before.contains p) = _
  rw [sortByConfig_eq spec files, List.filter_append, List.filter_append, List.filter_append,
    List.filter_append, List.filter_append,
    filter_eq_self_of (fun x hx => mem_beforeGroup_before (mem_of_mem_bucketSort hx)),
    filter_eq_nil_of (fun x hx => (mem_joinToGroup_facts (mem_of_mem_bucketSort hx)).1),
    filter_eq_nil_of (fun x hx => (mem_bowerGroup_facts (mem_of_mem_bucketSort hx)).1),
    filter_eq_nil_of (fun x hx => (mem_vendorGroup_facts hx).1),
    filter_eq_nil_of (fun x hx => (mem_remainderGroup_facts hx).1),
    filter_eq_nil_of (fun x hx => (mem_afterGroup_facts (mem_of_mem_bucketSort hx)).1)]
  simp

theorem nonBefore_out (spec : OrderingSpec) (files : List String) :
    nonBefore spec (sortByConfig files (some spec)) =
      bucketSort spec.joinToValue (joinToGroup spec files) ++
        (bucketSort spec.bower (bowerGroup spec files) ++
          (vendorGroup spec files ++
            (remainderGroup spec files ++ bucketSort spec.after (afterGroup spec files)))) := by
  show (sortByConfig files (some spec)).filter (fun p => !spec.before.contains p) = _
  rw [sortByConfig_eq spec files, List.filter_append, List.filter_append, List.filter_append,
    List.filter_append, List.filter_append,
    filter_eq_nil_of (fun x hx => bnot_eq_false_of_eq_true (mem_beforeGroup_before (mem_of_mem_bucketSort hx))),
    filter_eq_self_of (fun x hx => bnot_eq_true_of_eq_false ((mem_joinToGroup_facts (mem_of_mem_bucketSort hx)).1)),
    filter_eq_self_of (fun x hx => bnot_eq_true_of_eq_false ((mem_bowerGroup_facts (mem_of_mem_bucketSort hx)).1)),
    filter_eq_self_of (fun x hx => bnot_eq_true_of_eq_false ((mem_vendorGroup_facts hx).1)),
    filter_eq_self_of (fun x hx => bnot_eq_true_of_eq_false ((mem_remainderGroup_facts hx).1)),
    filter_eq_self_of (fun x hx => bnot_eq_true_of_eq_false ((mem_afterGroup_facts (mem_of_mem_bucketSort hx)).1))]
  simp

theorem afterGroup_out (spec : OrderingSpec) (files : List String) :
    afterGroup spec (sortByConfig files (some spec)) =
      bucketSort spec.after (afterGroup spec files) := by
  show (nonBefore spec (sortByConfig files (some spec))).filter
      (fun p => spec.after.contains p) = _
  rw [nonBefore_out spec files, List.filter_append, List.filter_append, List.filter_append,
    List.filter_append,
    filter_eq_nil_of (fun x hx => (mem_joinToGroup_facts (mem_of_mem_bucketSort hx)).2.1),
    filter_eq_nil_of (fun x hx => (mem_bowerGroup_facts (mem_of_mem_bucketSort hx)).2.1),
    filter_eq_nil_of (fun x hx => (mem_vendorGroup_facts hx).2.1),
    filter_eq_nil_of (fun x hx => (mem_remainderGroup_facts hx).2.1),
    filter_eq_self_of (fun x hx => (mem_afterGroup_facts (mem_of_mem_bucketSort hx)).2)]
  simp

theorem rest1_out (spec : OrderingSpec) (files : List String) :
    rest1 spec (sortByConfig files (some spec)) =
      bucketSort spec.joinToValue (joinToGroup spec files) ++
        (bucketSort spec.bower (bowerGroup spec files) ++
          (vendorGroup spec files ++ remainderGroup spec files)) := by
  show (nonBefore spec (sortByConfig files (some spec))).filter
      (fun p => !spec.after.contains p) = _
  rw [nonBefore_out spec files, List.filter_append, List.filter_append, List.filter_append,
    List.filter_append,
    filter_eq_self_of (fun x hx => bnot_eq_true_of_eq_false ((mem_joinToGroup_facts (mem_of_mem_bucketSort hx)).2.1)),
    filter_eq_self_of (fun x hx => bnot_eq_true_of_eq_false ((mem_bowerGroup_facts (mem_of_mem_bucketSort hx)).2.1)),
    filter_eq_self_of (fun x hx => bnot_eq_true_of_eq_false ((mem_vendorGroup_facts hx).2.1)),
    filter_eq_self_of (fun x hx => bnot_eq_true_of_eq_false ((mem_remainderGroup_facts hx).2.1)),
    filter_eq_nil_of (fun x hx => bnot_eq_false_of_eq_true ((mem_afterGroup_facts (mem_of_mem_bucketSort hx)).2))]
  simp

theorem joinToGroup_out (spec : OrderingSpec) (files : List String) :
    joinToGroup spec (sortByConfig files (some spec)) =
      bucketSort spec.joinToValue (joinToGroup spec files) := by
  show (rest1 spec (sortByConfig files (some spec))).filter
      (fun p => spec.joinToValue.contains p) = _
  rw [rest1_out spec files, List.filter_append, List.filter_append, List.filter_append,
    filter_eq_self_of (fun x hx => (mem_joinToGroup_facts (mem_of_mem_bucketSort hx)).2.2),
    filter_eq_nil_of (fun x hx => (mem_bowerGroup_facts (mem_of_mem_bucketSort hx)).2.2.1),
    filter_eq_nil_of (fun x hx => (mem_vendorGroup_facts hx).2.2.1),
    filter_eq_nil_of (fun x hx => (mem_remainderGroup_facts hx).2.2.1)]
  simp

theorem rest2_out (spec : OrderingSpec) (files : List String) :
    rest2 spec (sortByConfig files (some spec)) =
      bucketSort spec.bower (bowerGroup spec files) ++
        (vendorGroup spec files ++ remainderGroup spec files) := by
  show (rest1 spec (sortByConfig files (some spec))).filter
      (fun p => !spec.joinToValue.contains p) = _
  rw [rest1_out spec files, List.filter_append, List.filter_append, List.filter_append,
    filter_eq_nil_of (fun x hx => bnot_eq_false_of_eq_true ((mem_joinToGroup_facts (mem_of_mem_bucketSort hx)).2.2)),
    filter_eq_self_of (fun x hx => bnot_eq_true_of_eq_false ((mem_bowerGroup_facts (mem_of_mem_bucketSort hx)).2.2.1)),
    filter_eq_self_of (fun x hx => bnot_eq_true_of_eq_false ((mem_vendorGroup_facts hx).2.2.1)),
    filter_eq_self_of (fun x hx => bnot_eq_true_of_eq_false ((mem_remainderGroup_facts hx).2.2.1))]
  simp

theorem bowerGroup_out (spec : OrderingSpec) (files : List String) :
    bowerGroup spec (sortByConfig files (some spec)) =
      bucketSort spec.bower (bowerGroup spec files) := by
  show (rest2 spec (sortByConfig files (some spec))).filter
      (fun p => spec.bower.contains p) = _
  rw [rest2_out spec files, List.filter_append, List.filter_append,
    filter_eq_self_of (fun x hx => (mem_bowerGroup_facts (mem_of_mem_bucketSort hx)).2.2.2),
    filter_eq_nil_of (fun x hx => (mem_vendorGroup_facts hx).2.2.2.1),
    filter_eq_nil_of (fun x hx => (mem_remainderGroup_facts hx).2.2.2.1)]
  simp

theorem rest3_out (spec : OrderingSpec) (files : List String) :
    rest3 spec (sortByConfig files (some spec)) =
      vendorGroup spec files ++ remainderGroup spec files := by
  show (rest2 spec (sortByConfig files (some spec))).filter
      (fun p => !spec.bower.contains p) = _
  rw [rest2_out spec files, List.filter_append, List.filter_append,
    filter_eq_nil_of (fun x hx => bnot_eq_false_of_eq_true ((mem_bowerGroup_facts (mem_of_mem_bucketSort hx)).2.2.2)),
    filter_eq_self_of (fun x hx => bnot_eq_true_of_eq_false ((mem_vendorGroup_facts hx).2.2.2.1)),
    filter_eq_self_of (fun x hx => bnot_eq_true_of_eq_false ((mem_remainderGroup_facts hx).2.2.2.1))]
  simp

theorem vendorGroup_out (spec : OrderingSpec) (files : List String) :
    vendorGroup spec (sortByConfig files (some spec)) = vendorGroup spec files := by
  show (rest3 spec (sortByConfig files (some spec))).filter
      (fun p => spec.vendorConvention p) = _
  rw [rest3_out spec files, List.filter_append,
    filter_eq_self_of (fun x hx => (mem_vendorGroup_facts hx).2.2.2.2),
    filter_eq_nil_of (fun x hx => (mem_remainderGroup_facts hx).2.2.2.2)]
  simp

theorem remainderGroup_out (spec : OrderingSpec) (files : List String) :
    remainderGroup spec (sortByConfig files (some spec)) = remainderGroup spec files := by
  show (rest3 spec (sortByConfig files (some spec))).filter
      (fun p => !spec.vendorConvention p) = _
  rw [rest3_out spec files, List.filter_append,
    filter_eq_nil_of (fun x hx => bnot_eq_false_of_eq_true ((mem_vendorGroup_facts hx).2.2.2.2)),
    filter_eq_self_of (fun x hx => bnot_eq_true_of_eq_false ((mem_remainderGroup_facts hx).2.2.2.2))]
  simp

/-- C3.  The ordering function is idempotent: re-ordering an
already-ordered list with the same ordering configuration returns that
list unchanged (for the non-object configuration this is immediate, since
the input is returned as is). -/
theorem sortByConfig_idempotent (files : List String) (cfg : Option OrderingSpec) :
    sortByConfig (sortByConfig files cfg) cfg = sortByConfig files cfg := by
  cases cfg with
  | none => rfl
  | some spec =>
      rw [sortByConfig_eq spec (sortByConfig files (some spec)), beforeGroup_out,
        joinToGroup_out, bowerGroup_out, vendorGroup_out, remainderGroup_out, afterGroup_out,
        bucketSort_idem, bucketSort_idem, bucketSort_idem, bucketSort_idem,
        sortByConfig_eq spec files]

theorem pairwise_of_forall_mem {R : String → String → Prop} :
    ∀ {l : List String}, (∀ a ∈ l, ∀ b ∈ l, R a b) → l.Pairwise R
  | [], _ => List.Pairwise.nil
  | x :: xs, h =>
      List.Pairwise.cons
        (fun b hb => h x (List.mem_cons_self x xs) b (List.mem_cons_of_mem x hb))
        (pairwise_of_forall_mem fun a ha b hb =>
          h a (List.mem_cons_of_mem x ha) b (List.mem_cons_of_mem x hb))

theorem rankIn_eq_zero {a c : String} {rest : List String} (h : (a == c) = true) :
    rankIn (c :: rest) a = 0 := by
  simp [rankIn, h]

theorem rankIn_cons_ne {a c : String} {rest : List String} (h : (a == c) = false) :
    rankIn (c :: rest) a = rankIn rest a + 1 := by
  simp [rankIn, h]

theorem rankIn_sorted (crit : List String) (l : List String)
    (hl : ∀ x ∈ l, x ∈ crit) :
    (bucketSort crit l).Pairwise (fun a b => rankIn crit a ≤ rankIn crit b) := by
  induction crit generalizing l with
  | nil => exact pairwise_of_forall_mem fun a _ b _ => Nat.le_refl 0
  | cons c rest ih =>
      show (l.filter (fun p => p == c) ++
        bucketSort rest (l.filter (fun p => !(p == c)))).Pairwise _
      rw [List.pairwise_append]
      refine ⟨?_, ?_, ?_⟩
      · refine pairwise_of_forall_mem fun a ha b hb => ?_
        rw [rankIn_eq_zero (List.mem_filter.mp ha).2]
        exact Nat.zero_le _
      · have hsub : ∀ x ∈ l.filter (fun p => !(p == c)), x ∈ rest := by
          intro x hx
          have hxl := (List.mem_filter.mp hx).1
          have hxc := (List.mem_filter.mp hx).2
          rcases List.mem_cons.mp (hl x hxl) with hxeq | hxr
          · subst hxeq
            simp at hxc
          · exact hxr
        refine (ih _ hsub).imp_of_mem fun {a b} ha hb hr => ?_
        have ha' := (List.mem_filter.mp (mem_of_mem_bucketSort ha)).2
        have hb' := (List.mem_filter.mp (mem_of_mem_bucketSort hb)).2
        have ha2 : (a == c) = false := by
          cases hac : (a == c) with
          | false => rfl
          | true => rw [hac] at ha'; simp at ha'
        have hb2 : (b == c) = false := by
          cases hbc : (b == c) with
          | false => rfl
          | true => rw [hbc] at hb'; simp at hb'
        rw [rankIn_cons_ne ha2, rankIn_cons_ne hb2]
        exact Nat.succ_le_succ hr
      · intro a ha b _
        rw [rankIn_eq_zero (List.mem_filter.mp ha).2]
        exact Nat.zero_le _

theorem afterGroup_eq_filter_of_disjoint {spec : OrderingSpec} {files : List String}
    (hdisj : ∀ p ∈ spec.before, p ∉ spec.after) :
    afterGroup spec files = files.filter (fun p => spec.after.contains p) := by
  show (files.filter (fun p => !spec.before.contains p)).filter
      (fun p => spec.after.contains p) = _
  rw [List.filter_filter]
  apply List.filter_congr
  intro x _
  cases hb : spec.after.contains x with
  | false => simp
  | true =>
      have hxa : x ∈ spec.after := mem_of_contains_eq_true hb
      have hxnb : x ∉ spec.before := fun hxb => hdisj x hxb hxa
      rw [contains_eq_false_of_not_mem hxnb]
      rfl

/-- C1 (amended).  Provided the `before` and `after` lists are disjoint,
the ordering function places exactly the input paths listed in `before` at
the front of the result, sorted in `before`'s listed order, and exactly
the input paths listed in `after` at the end, sorted in `after`'s listed
order, with no `before`/`after` path in between; and in the end-to-end
scenario with files `a.js`, `b.js` and `before = ['b.js']` the result is
`['b.js', 'a.js']`.  (Without disjointness the first-match partition sends
a path listed in both `before` and `after` to the front, see the
counterexample.) -/
theorem sortByConfig_before_after_placement :
    (∀ (files : List String) (spec : OrderingSpec),
      (∀ p ∈ spec.before, p ∉ spec.after) →
      ∃ front mid back,
        sortByConfig files (some spec) = front ++ mid ++ back ∧
        List.Perm front (files.filter fun p => spec.before.contains p) ∧
        front.Pairwise (fun a b => rankIn spec.before a ≤ rankIn spec.before b) ∧
        List.Perm back (files.filter fun p => spec.after.contains p) ∧
        back.Pairwise (fun a b => rankIn spec.after a ≤ rankIn spec.after b) ∧
        (∀ p ∈ mid, spec.before.contains p = false ∧ spec.after.contains p = false)) ∧
    sortByConfig ["a.js", "b.js"] (some scenarioSpec) = ["b.js", "a.js"] := by
  constructor
  · intro files spec hdisj
    refine ⟨bucketSort spec.before (beforeGroup spec files),
      bucketSort spec.joinToValue (joinToGroup spec files) ++
        (bucketSort spec.bower (bowerGroup spec files) ++
          (vendorGroup spec files ++ remainderGroup spec files)),
      bucketSort spec.after (afterGroup spec files), ?_, ?_, ?_, ?_, ?_, ?_⟩
    · rw [sortByConfig_eq]
      simp [List.append_assoc]
    · exact bucketSort_perm _ _
    · exact rankIn_sorted _ _ fun x hx =>
        mem_of_contains_eq_true (mem_beforeGroup_before hx)
    · rw [← afterGroup_eq_filter_of_disjoint hdisj]
      exact bucketSort_perm _ _
    · exact rankIn_sorted _ _ fun x hx =>
        mem_of_contains_eq_true (mem_afterGroup_facts hx).2
    · intro p hp
      rcases List.mem_append.mp hp with hJ | hp2
      · exact ⟨(mem_joinToGroup_facts (mem_of_mem_bucketSort hJ)).1,
          (mem_joinToGroup_facts (mem_of_mem_bucketSort hJ)).2.1⟩
      rcases List.mem_append.mp hp2 with hW | hp3
      · exact ⟨(mem_bowerGroup_facts (mem_of_mem_bucketSort hW)).1,
          (mem_bowerGroup_facts (mem_of_mem_bucketSort hW)).2.1⟩
      rcases List.mem_append.mp hp3 with hV | hR
      · exact ⟨(mem_vendorGroup_facts hV).1, (mem_vendorGroup_facts hV).2.1⟩
      · exact ⟨(mem_remainderGroup_facts hR).1, (mem_remainderGroup_facts hR).2.1⟩
  · decide

/-- C1 counterexample.  With `before = ['x']` and `after = ['x']` on input
`['x', 'y']`, the path `x` is listed in `after` and present in the input,
yet the ordering function returns `['x', 'y']`: `x` is placed first by the
first-match partition, not last, so the claim's unconditional "paths in
`after` are placed at the end" is false. -/
theorem sortByConfig_after_overlap_cex :
    "x" ∈ overlapSpec.after ∧ "x" ∈ (["x", "y"] : List String) ∧
    sortByConfig ["x", "y"] (some overlapSpec) = ["x", "y"] ∧
    (sortByConfig ["x", "y"] (some overlapSpec)).getLast? ≠ some "x" := by
  refine ⟨?_, ?_, ?_, ?_⟩ <;> decide

/-- C1 witness: the amended placement theorem applied to the concrete
end-to-end scenario, its disjointness hypothesis discharged by
computation. -/
theorem sortByConfig_before_after_placement_witness :
    (∀ p ∈ scenarioSpec.before, p ∉ scenarioSpec.after) ∧
    (∃ front mid back,
      sortByConfig ["a.js", "b.js"] (some scenarioSpec) = front ++ mid ++ back ∧
      List.Perm front ((["a.js", "b.js"] : List String).filter
        fun p => scenarioSpec.before.contains p) ∧
      front.Pairwise (fun a b => rankIn scenarioSpec.before a ≤ rankIn scenarioSpec.before b) ∧
      List.Perm back ((["a.js", "b.js"] : List String).filter
        fun p => scenarioSpec.after.contains p) ∧
      back.Pairwise (fun a b => rankIn scenarioSpec.after a ≤ rankIn scenarioSpec.after b) ∧
      (∀ p ∈ mid, scenarioSpec.before.contains p = false ∧
        scenarioSpec.after.contains p = false)) :=
  ⟨by decide,
    sortByConfig_before_after_placement.1 ["a.js", "b.js"] scenarioSpec (by decide)⟩

/-- The first file of the end-to-end scenario: `a.js` with content
`var a=1` and an identity source node. -/
def scenarioFileA : GenFile :=
  { path := "a.js", node := "var a=1", data := "var a=1", source := "var a=1",
    isIdentity := true, isModule := false }

/-- The second file of the end-to-end scenario: `b.js` with content
`var b=2` and an identity source node. -/
def scenarioFileB : GenFile :=
  { path := "b.js", node := "var b=2", data := "var b=2", source := "var b=2",
    isIdentity := true, isModule := false }

/-- C6.  In a script bundle every fragment whose content does not already
end in a statement separator gets one appended and fragments that do end
in one are left alone; concatenating the scenario files `var a=1` and
`var b=2` in natural order yields `var a=1;var b=2;`, i.e. `var a=1;`
followed by `var b=2;`, both separator-terminated. -/
theorem concat_statement_separator :
    (∀ f : GenFile, endsInSeparator (if f.isIdentity then f.data else f.source) = false →
      processor true f = f.node ++ ";") ∧
    (∀ f : GenFile, endsInSeparator (if f.isIdentity then f.data else f.source) = true →
      processor true f = f.node) ∧
    concat [scenarioFileA, scenarioFileB] (some "") [] = "var a=1;var b=2;" := by
  refine ⟨?_, ?_, ?_⟩
  · intro f h
    simp [processor, h]
  · intro f h
    simp [processor, h]
  · decide

/-- C6 witness: the separator-appending branch evaluated on the concrete
scenario file `a.js`. -/
theorem concat_statement_separator_witness :
    endsInSeparator
      (if scenarioFileA.isIdentity then scenarioFileA.data else scenarioFileA.source) = false ∧
    processor true scenarioFileA = scenarioFileA.node ++ ";" :=
  ⟨by decide, concat_statement_separator.1 scenarioFileA (by decide)⟩

/-- C7.  One optimizer stage whose optimizer succeeds without returning a
map produces the optimizer's new `data` while the previous stage's `map`,
`path` and `sourceFiles` are carried through exactly unchanged. -/
theorem runOptimizer_preserves_map_path_sourceFiles
    (optimizer : Optimizer) (g : PipelineResult) (out : OptimizedOutput)
    (hok : optimizer.optimize g = Except.ok out) (hmap : out.map = none) :
    runOptimizer optimizer (some g) =
      Except.ok
        { data := out.data, path := g.path, map := g.map,
          sourceFiles := g.sourceFiles, code := out.data } := by
  simp [runOptimizer, hok, hmap, prepareSourceMap]

/-- A concrete optimizer that succeeds and returns no map, for the C7
witness. -/
def minifyOptimizer : Optimizer :=
  { brunchPluginName := "uglify-js-brunch",
    optimize := fun _ => Except.ok { data := "MIN", map := none } }

/-- A concrete pipeline value entering an optimizer stage. -/
def samplePipeline : PipelineResult :=
  { data := "var a=1;", path := "public/app.js",
    map := some { payload := "MAP0", sourcesContent := [("a.js", "var a=1")] },
    sourceFiles := [{ path := "a.js", source := "var a=1" }],
    code := "var a=1;" }

/-- C7 witness: the frame theorem evaluated on a concrete optimizer and
pipeline value. -/
theorem runOptimizer_preserves_witness :
    minifyOptimizer.optimize samplePipeline = Except.ok { data := "MIN", map := none } ∧
    runOptimizer minifyOptimizer (some samplePipeline) =
      Except.ok
        { data := "MIN", path := samplePipeline.path, map := samplePipeline.map,
          sourceFiles := samplePipeline.sourceFiles, code := "MIN" } :=
  ⟨rfl, runOptimizer_preserves_map_path_sourceFiles minifyOptimizer samplePipeline
    { data := "MIN", map := none } rfl rfl⟩

theorem chain_foldl_error (optimizers : List Optimizer) (e : GenerateError) :
    optimizers.foldl (fun acc o => acc.bind (fun g => runOptimizer o (some g)))
      (Except.error e) = Except.error e := by
  induction optimizers with
  | nil => rfl
  | cons o rest ih => exact ih

theorem runOptimizer_ok_path {o : Optimizer} {b b' : PipelineResult}
    (h : runOptimizer o (some b) = Except.ok b') : b'.path = b.path := by
  cases hopt : o.optimize b with
  | ok out =>
      simp [runOptimizer, hopt] at h
      rw [← h]
  | error e =>
      simp [runOptimizer, hopt] at h

theorem chain_ok_path (optimizers : List Optimizer) (b g : PipelineResult)
    (h : optimizers.foldl (fun acc o => acc.bind (fun g => runOptimizer o (some g)))
      (Except.ok b) = Except.ok g) : g.path = b.path := by
  induction optimizers generalizing b with
  | nil =>
      simp at h
      rw [h]
  | cons o rest ih =>
      rw [List.foldl_cons] at h
      cases hro : runOptimizer o (some b) with
      | error e =>
          rw [show (Except.ok b).bind (fun x => runOptimizer o (some x)) =
            runOptimizer o (some b) from rfl, hro, chain_foldl_error rest e] at h
          cases h
      | ok b' =>
          rw [show (Except.ok b).bind (fun x => runOptimizer o (some x)) =
            runOptimizer o (some b) from rfl, hro] at h
          rw [ih b' h, runOptimizer_ok_path hro]

/-- C8.  If the optimizer chain reaches an optimizer that rejects, the
whole chain for that target fails with an error naming the offending
optimizer plugin and the target's output path; the optimizers after the
failing one never alter this outcome. -/
theorem optimize_error_attribution (data : String) (map : Option ComposedMap)
    (path : String) (sourceFiles : List SourceFileRef)
    (pre post : List Optimizer) (failing : Optimizer) (g : PipelineResult) (e : String)
    (h1 : optimize data map path pre sourceFiles = Except.ok g)
    (h2 : failing.optimize g = Except.error e) :
    optimize data map path (pre ++ failing :: post) sourceFiles =
      Except.error (GenerateError.optimizeFailed failing.brunchPluginName path e) := by
  have hpath : g.path = path := chain_ok_path pre _ g h1
  show (pre ++ failing :: post).foldl
      (fun acc o => acc.bind (fun g => runOptimizer o (some g)))
      (Except.ok
        { data := data, path := path, map := map,
          sourceFiles := sourceFiles, code := data }) = _
  rw [List.foldl_append]
  have h1' : pre.foldl (fun acc o => acc.bind (fun g => runOptimizer o (some g)))
      (Except.ok
        { data := data, path := path, map := map,
          sourceFiles := sourceFiles, code := data }) = Except.ok g := h1
  rw [h1', List.foldl_cons,
    show (Except.ok g).bind (fun x => runOptimizer failing (some x)) =
      runOptimizer failing (some g) from rfl,
    show runOptimizer failing (some g) =
      Except.error (GenerateError.optimizeFailed failing.brunchPluginName g.path e) by
        simp [runOptimizer, h2, formatOptimizerError],
    hpath, chain_foldl_error]

/-- A concrete optimizer that always rejects, for the C8 witness. -/
def brokenOptimizer : Optimizer :=
  { brunchPluginName := "broken-brunch",
    optimize := fun _ => Except.error "boom" }

/-- C8 witness: the attribution theorem evaluated with an empty prefix, a
concrete failing optimizer and a concrete target. -/
theorem optimize_error_attribution_witness :
    optimize "var a=1;" (some { payload := "MAP0", sourcesContent := [] })
        "public/app.js" [] [] = Except.ok
      { data := "var a=1;", path := "public/app.js",
        map := some { payload := "MAP0", sourcesContent := [] },
        sourceFiles := [], code := "var a=1;" } ∧
    optimize "var a=1;" (some { payload := "MAP0", sourcesContent := [] })
        "public/app.js" ([] ++ brokenOptimizer :: [minifyOptimizer]) [] =
      Except.error (GenerateError.optimizeFailed "broken-brunch" "public/app.js" "boom") :=
  ⟨rfl, optimize_error_attribution "var a=1;"
    (some { payload := "MAP0", sourcesContent := [] }) "public/app.js" []
    [] [minifyOptimizer] brokenOptimizer
    { data := "var a=1;", path := "public/app.js",
      map := some { payload := "MAP0", sourcesContent := [] },
      sourceFiles := [], code := "var a=1;" } "boom" rfl rfl⟩

/-- A job kind whose hash deserialization throws synchronously, for the C9
counterexample (the spec allows deserialization to fail; being a plain
synchronous call, such a failure is a throw). -/
def badDeserializeJob : WorkerJobKind :=
  { deserialize := fun _ => SyncResult.thrown "DESERIALIZE_FAILED",
    work := fun h => Except.ok h }

/-- The worker's job registry with the counterexample job under
`CompileJob`. -/
def badJobsTable : String → Option WorkerJobKind :=
  fun t => if t == "CompileJob" then some badDeserializeJob else none

/-- The concrete job message sent to the counterexample worker. -/
def badJobMsg : WorkerMsg :=
  { type := "CompileJob", hashData := "h1" }

/-- C9 (amended).  For every job message whose type is registered and
whose hash deserializes successfully, the worker sends exactly one
response — `{result}` when the job's work fulfils and `{error}` when it
rejects, never both and never none — and the handler does not crash the
worker process. -/
theorem worker_single_response (jobs : String → Option WorkerJobKind)
    (msg : WorkerMsg) (job : WorkerJobKind) (hash : String)
    (hjob : jobs msg.type = some job)
    (hde : job.deserialize msg.hashData = SyncResult.value hash) :
    (onMessage jobs msg).sent.length = 1 ∧
    (onMessage jobs msg).crashed = false ∧
    (∀ r, job.work hash = Except.ok r →
      (onMessage jobs msg).sent = [WorkerResponse.result r]) ∧
    (∀ e, job.work hash = Except.error e →
      (onMessage jobs msg).sent = [WorkerResponse.error e]) := by
  have hout : onMessage jobs msg =
      (match job.work hash with
        | Except.ok r => { sent := [WorkerResponse.result r], crashed := false }
        | Except.error e => { sent := [WorkerResponse.error e], crashed := false }) := by
    simp [onMessage, processMsg, hjob, hde]
    cases job.work hash <;> simp
  cases hw : job.work hash with
  | ok r =>
      rw [hw] at hout
      refine ⟨by rw [hout]; rfl, by rw [hout], ?_, ?_⟩
      · intro r2 hr2
        cases hr2
        rw [hout]
      · intro e2 he2
        cases he2
  | error e =>
      rw [hw] at hout
      refine ⟨by rw [hout]; rfl, by rw [hout], ?_, ?_⟩
      · intro r2 hr2
        cases hr2
      · intro e2 he2
        cases he2
        rw [hout]

/-- C9 counterexample.  A `CompileJob` message whose hash fails
deserialization produces no response message at all and the synchronous
throw escapes the two-callback promise handler uncaught, crashing the
worker — contrary to the claim that any failing step yields exactly one
`{error}` response and never crashes the worker. -/
theorem worker_sync_throw_cex :
    (onMessage badJobsTable badJobMsg).sent = [] ∧
    (onMessage badJobsTable badJobMsg).sent.length ≠ 1 ∧
    (onMessage badJobsTable badJobMsg).crashed = true := by
  refine ⟨rfl, ?_, rfl⟩
  intro h
  cases h

/-- A job kind that deserializes and works successfully, for the C9
witness. -/
def okJob : WorkerJobKind :=
  { deserialize := fun h => SyncResult.value h,
    work := fun h => Except.ok ("compiled " ++ h) }

/-- The worker registry holding the witness job under `CompileJob`. -/
def okJobsTable : String → Option WorkerJobKind :=
  fun t => if t == "CompileJob" then some okJob else none

/-- C9 witness: the amended round-trip theorem evaluated on a concrete
registry, message and job whose deserialization succeeds. -/
theorem worker_single_response_witness :
    okJobsTable badJobMsg.type = some okJob ∧
    okJob.deserialize badJobMsg.hashData = SyncResult.value "h1" ∧
    (onMessage okJobsTable badJobMsg).sent.length = 1 ∧
    (onMessage okJobsTable badJobMsg).crashed = false :=
  ⟨rfl, rfl,
    (worker_single_response okJobsTable badJobMsg okJob "h1" rfl rfl).1,
    (worker_single_response okJobsTable badJobMsg okJob "h1" rfl rfl).2.1⟩

theorem beq_eq_false_of_ne {a b : String} (h : a ≠ b) : (a == b) = false := by
  cases hc : a == b with
  | false => rfl
  | true => exact absurd (eq_of_beq hc) h

theorem contains_append_singleton {S : List String} {a b : String} (h : a ≠ b) :
    (S ++ [b]).contains a = S.contains a := by
  cases hS : S.contains a with
  | true =>
      exact contains_eq_true_of_mem (List.mem_append.mpr (Or.inl (mem_of_contains_eq_true hS)))
  | false =>
      apply contains_eq_false_of_not_mem
      intro hmem
      rcases List.mem_append.mp hmem with h1 | h2
      · rw [contains_eq_true_of_mem h1] at hS
        cases hS
      · exact h (List.mem_singleton.mp h2)

theorem claimPaths_eq (typeName target : String) :
    ∀ (e : List (String × Matcher)) (S : List String) (ws : List JoinWarning),
      (e.map (fun x => x.1)).Nodup →
      claimPaths typeName target e S ws =
        (e.filter (fun x => !S.contains x.1),
          S ++ (e.filter (fun x => !S.contains x.1)).map (fun x => x.1),
          ws ++ (e.filter (fun x => S.contains x.1)).map
            (fun x => JoinWarning.outputAlreadyClaimed x.1 typeName target))
  | [], S, ws, _ => by simp [claimPaths]
  | x :: xs, S, ws, hnd => by
      have hx1 : x.1 ∉ xs.map (fun y => y.1) := (List.nodup_cons.mp hnd).1
      have hnd' := (List.nodup_cons.mp hnd).2
      cases hc : S.contains x.1 with
      | true =>
          simp only [claimPaths, hc]
          rw [claimPaths_eq typeName target xs S
            (ws ++ [JoinWarning.outputAlreadyClaimed x.1 typeName target]) hnd']
          simp [List.filter_cons, hc, mem_of_contains_eq_true hc, List.append_assoc]
      | false =>
          simp only [claimPaths, hc]
          rw [claimPaths_eq typeName target xs (S ++ [x.1]) ws hnd']
          have hflt1 : xs.filter (fun y => !(S ++ [x.1]).contains y.1) =
              xs.filter (fun y => !S.contains y.1) :=
            List.filter_congr fun y hy => by
              rw [contains_append_singleton
                (fun he => hx1 (by rw [← he]; exact List.mem_map_of_mem (fun z => z.1) hy))]
          have hflt2 : xs.filter (fun y => (S ++ [x.1]).contains y.1) =
              xs.filter (fun y => S.contains y.1) :=
            List.filter_congr fun y hy => by
              rw [contains_append_singleton
                (fun he => hx1 (by rw [← he]; exact List.mem_map_of_mem (fun z => z.1) hy))]
          rw [hflt1, hflt2]
          have hn : x.1 ∉ S := fun hm => by
            rw [contains_eq_true_of_mem hm] at hc
            cases hc
          simp [List.filter_cons, hc, hn, List.append_assoc]

theorem processTarget_not_defined (watched : List String)
    (tjc : List (String × Matcher)) (ty : String)
    (acc : List (String × List (String × Matcher))) (outP : List String)
    (ws : List JoinWarning) (t : String) (e : List (String × Matcher))
    (hnd : (e.map (fun x => x.1)).Nodup)
    (hdisjJ : ∀ k ∈ e.map (fun x => x.1), k ∉ tjc.map (fun x => x.1)) :
    processTarget watched tjc ty (acc, outP, ws) (t, JoinToCfg.table e) =
      (acc ++ [(t, e.filter (fun x => !outP.contains x.1))],
        outP ++ (e.filter (fun x => !outP.contains x.1)).map (fun x => x.1),
        (if watched.any (fun path => startsWithStr t (path ++ "/")) then ws
          else ws ++ [JoinWarning.entryPointNotWatched t]) ++
          (e.filter (fun x => outP.contains x.1)).map
            (fun x => JoinWarning.outputAlreadyClaimed x.1 ty t)) := by
  have hAD : ((joinToKeys (JoinToCfg.table e)).any
      fun out => ((tjc.map fun x => x.1).contains out)) = false := by
    cases hA : ((joinToKeys (JoinToCfg.table e)).any
        fun out => ((tjc.map fun x => x.1).contains out)) with
    | false => rfl
    | true =>
        obtain ⟨k, hk, hp⟩ := List.any_eq_true.mp hA
        exact absurd (mem_of_contains_eq_true hp) (hdisjJ k hk)
  simp only [processTarget, hAD, Bool.false_eq_true, if_false,
    show normalizeJoinConfig (some (JoinToCfg.table e)) = e from rfl,
    claimPaths_eq ty t e outP _ hnd]

theorem processTarget_already_defined (watched : List String)
    (tjc : List (String × Matcher)) (ty : String)
    (acc : List (String × List (String × Matcher))) (outP : List String)
    (ws : List JoinWarning) (t : String) (e : List (String × Matcher))
    (k : String) (hk1 : k ∈ e.map (fun x => x.1)) (hk2 : k ∈ tjc.map (fun x => x.1)) :
    processTarget watched tjc ty (acc, outP, ws) (t, JoinToCfg.table e) =
      (acc, outP,
        (if watched.any (fun path => startsWithStr t (path ++ "/")) then ws
          else ws ++ [JoinWarning.entryPointNotWatched t]) ++
          [JoinWarning.joinToAlreadyDefined ty t]) := by
  have hAD : ((joinToKeys (JoinToCfg.table e)).any
      fun out => ((tjc.map fun x => x.1).contains out)) = true :=
    List.any_eq_true.mpr ⟨k, hk1, contains_eq_true_of_mem hk2⟩
  simp only [processTarget, hAD, if_true]

/-- A `config.files` with only a javascripts section: a table-valued
default `joinTo` plus entry points, the shape in which entry-point
conflicts arise. -/
def jsOnlyCfg (j : List (String × Matcher))
    (targets : List (String × JoinToCfg)) : CfgFiles :=
  [("javascripts", { joinTo := some (JoinToCfg.table j), entryPoints := some targets })]

theorem createJoinConfig_jsOnly (j : List (String × Matcher))
    (targets : List (String × JoinToCfg)) (watched : List String) :
    createJoinConfig (jsOnlyCfg j targets) watched =
      (([("javascripts",
          ("*", j) :: (targets.foldl (processTarget watched j "javascripts") ([], [], [])).1),
        ("templates", [("*", j)])] : EntryPointsCfg),
        (targets.foldl (processTarget watched j "javascripts") ([], [], [])).2.2) := rfl

theorem twoTargets_fold (watched : List String) (j : List (String × Matcher))
    (t1 t2 : String) (e1 e2 : List (String × Matcher))
    (hnd1 : (e1.map (fun x => x.1)).Nodup) (hnd2 : (e2.map (fun x => x.1)).Nodup)
    (hdj1 : ∀ k ∈ e1.map (fun x => x.1), k ∉ j.map (fun x => x.1))
    (hdj2 : ∀ k ∈ e2.map (fun x => x.1), k ∉ j.map (fun x => x.1)) :
    [(t1, JoinToCfg.table e1), (t2, JoinToCfg.table e2)].foldl
        (processTarget watched j "javascripts") ([], [], []) =
      ([(t1, e1), (t2, e2.filter (fun x => !(e1.map (fun y => y.1)).contains x.1))],
        e1.map (fun y => y.1) ++
          (e2.filter (fun x => !(e1.map (fun y => y.1)).contains x.1)).map (fun y => y.1),
        (if watched.any (fun path => startsWithStr t2 (path ++ "/")) then
            (if watched.any (fun path => startsWithStr t1 (path ++ "/")) then
              ([] : List JoinWarning) else [JoinWarning.entryPointNotWatched t1])
          else
            (if watched.any (fun path => startsWithStr t1 (path ++ "/")) then
              ([] : List JoinWarning) else [JoinWarning.entryPointNotWatched t1]) ++
              [JoinWarning.entryPointNotWatched t2]) ++
          (e2.filter (fun x => (e1.map (fun y => y.1)).contains x.1)).map
            (fun x => JoinWarning.outputAlreadyClaimed x.1 "javascripts" t2)) := by
  rw [List.foldl_cons,
    processTarget_not_defined watched j "javascripts" [] [] [] t1 e1 hnd1 hdj1,
    filter_eq_self_of (l := e1) (p := fun x => !([] : List String).contains x.1)
      (fun x _ => rfl),
    filter_eq_nil_of (l := e1) (p := fun x => ([] : List String).contains x.1)
      (fun x _ => rfl)]
  simp only [List.nil_append, List.append_nil, List.map_nil]
  rw [List.foldl_cons, List.foldl_nil,
    processTarget_not_defined watched j "javascripts" [(t1, e1)]
      (e1.map fun y => y.1) _ t2 e2 hnd2 hdj2]
  simp only [List.nil_append, List.append_nil, List.singleton_append]

/-- C4 (amended).  Join-configuration conflicts are resolved
first-declared-wins with a warning, for the two conflict checks the
resolver performs: (a) an entry point one of whose output keys is already
claimed by the same type's default `joinTo` table is dropped whole, with a
warning, and is absent from the resolved mapping; (b) when two entry
points claim the same output path, the earlier keeps it and the later's
claim is deleted from its resolved table, with a warning.  Resolution
itself is a total function and never fails.  (A claim by another type's
default `joinTo` is not checked against entry points — see the
counterexample — which is what restricts the claim to these two cases.) -/
theorem createJoinConfig_conflict_resolution :
    (∀ (watched : List String) (j e1 : List (String × Matcher)) (t1 k : String),
      k ∈ e1.map (fun x => x.1) → k ∈ j.map (fun x => x.1) → t1 ≠ "*" →
      epOutKeys (createJoinConfig (jsOnlyCfg j [(t1, JoinToCfg.table e1)]) watched).1
          "javascripts" t1 = none ∧
        JoinWarning.joinToAlreadyDefined "javascripts" t1 ∈
          (createJoinConfig (jsOnlyCfg j [(t1, JoinToCfg.table e1)]) watched).2) ∧
    (∀ (watched : List String) (j e1 e2 : List (String × Matcher)) (t1 t2 p : String),
      (e1.map (fun x => x.1)).Nodup → (e2.map (fun x => x.1)).Nodup →
      (∀ k ∈ e1.map (fun x => x.1), k ∉ j.map (fun x => x.1)) →
      (∀ k ∈ e2.map (fun x => x.1), k ∉ j.map (fun x => x.1)) →
      t1 ≠ "*" → t2 ≠ "*" → t2 ≠ t1 →
      p ∈ e1.map (fun x => x.1) → p ∈ e2.map (fun x => x.1) →
      (∃ ks1, epOutKeys (createJoinConfig (jsOnlyCfg j
          [(t1, JoinToCfg.table e1), (t2, JoinToCfg.table e2)]) watched).1
            "javascripts" t1 = some ks1 ∧ p ∈ ks1) ∧
      (∃ ks2, epOutKeys (createJoinConfig (jsOnlyCfg j
          [(t1, JoinToCfg.table e1), (t2, JoinToCfg.table e2)]) watched).1
            "javascripts" t2 = some ks2 ∧ p ∉ ks2) ∧
      JoinWarning.outputAlreadyClaimed p "javascripts" t2 ∈
        (createJoinConfig (jsOnlyCfg j
          [(t1, JoinToCfg.table e1), (t2, JoinToCfg.table e2)]) watched).2) := by
  constructor
  · intro watched j e1 t1 k hk1 hk2 ht1
    rw [createJoinConfig_jsOnly, List.foldl_cons, List.foldl_nil,
      processTarget_already_defined watched j "javascripts" [] [] [] t1 e1 k hk1 hk2]
    constructor
    · simp [epOutKeys, List.lookup, beq_eq_false_of_ne ht1]
    · simp
  · intro watched j e1 e2 t1 t2 p hnd1 hnd2 hdj1 hdj2 ht1 ht2 ht21 hp1 hp2
    rw [createJoinConfig_jsOnly, twoTargets_fold watched j t1 t2 e1 e2 hnd1 hnd2 hdj1 hdj2]
    refine ⟨⟨e1.map (fun x => x.1), ?_, hp1⟩,
      ⟨(e2.filter (fun x => !(e1.map (fun y => y.1)).contains x.1)).map (fun x => x.1),
        ?_, ?_⟩, ?_⟩
    · simp [epOutKeys, List.lookup, beq_eq_false_of_ne ht1]
    · simp [epOutKeys, List.lookup, beq_eq_false_of_ne ht2, beq_eq_false_of_ne ht21]
    · intro hpmem
      obtain ⟨x, hxf, hxp⟩ := List.mem_map.mp hpmem
      have hxe2 := (List.mem_filter.mp hxf).2
      have hcx : (e1.map (fun y => y.1)).contains x.1 = true := by
        rw [hxp]
        exact contains_eq_true_of_mem hp1
      rw [hcx] at hxe2
      simp at hxe2
    · apply List.mem_append.mpr
      right
      apply List.mem_map.mpr
      obtain ⟨x, hx, hxp⟩ := List.mem_map.mp hp2
      refine ⟨x, List.mem_filter.mpr ⟨hx, ?_⟩, by rw [hxp]⟩
      rw [hxp]
      exact contains_eq_true_of_mem hp1

/-- A matcher that accepts every path, used in the concrete
join-configuration examples. -/
def alwaysMatcher : Matcher := { test := fun _ => true }

/-- A configuration in which the stylesheets default `joinTo` claims
`out.js` and a javascripts entry point also claims `out.js`. -/
def crossTypeCfg : CfgFiles :=
  [("stylesheets", { joinTo := some (JoinToCfg.single "out.js"), entryPoints := none }),
   ("javascripts",
     { joinTo := some (JoinToCfg.table []),
       entryPoints := some [("app/init.js", JoinToCfg.table [("out.js", alwaysMatcher)])] })]

/-- C4 counterexample.  The stylesheets default `joinTo` (declared first)
claims `out.js`, and a later javascripts entry point claims `out.js` as
well; resolution keeps BOTH claims in the resolved mapping and logs no
warning, because the resolver only checks an entry point against the same
type's `joinTo` table and against earlier entry points — so the claim's
unconditional "whenever two rules claim the same output path, the later
claim is absent and a warning is logged" is false. -/
theorem createJoinConfig_cross_type_conflict_cex :
    epOutKeys (createJoinConfig crossTypeCfg ["app"]).1 "stylesheets" "*" =
      some ["out.js"] ∧
    epOutKeys (createJoinConfig crossTypeCfg ["app"]).1 "javascripts" "app/init.js" =
      some ["out.js"] ∧
    (createJoinConfig crossTypeCfg ["app"]).2 = [] :=
  ⟨rfl, rfl, rfl⟩

/-- The single-path entry configuration of the first witness target. -/
def witnessEntryOne : List (String × Matcher) := [("one.js", alwaysMatcher)]

/-- The entry configuration of the second witness target, claiming
`one.js` again plus `two.js`. -/
def witnessEntryTwo : List (String × Matcher) :=
  [("one.js", alwaysMatcher), ("two.js", alwaysMatcher)]

/-- C4 witness: the amended conflict-resolution theorem evaluated on two
concrete entry points fighting over `one.js`, every hypothesis discharged
by computation. -/
theorem createJoinConfig_conflict_resolution_witness :
    "one.js" ∈ witnessEntryOne.map (fun x => x.1) ∧
    (∃ ks1, epOutKeys (createJoinConfig (jsOnlyCfg []
        [("app/a.js", JoinToCfg.table witnessEntryOne),
         ("app/b.js", JoinToCfg.table witnessEntryTwo)]) ["app"]).1
          "javascripts" "app/a.js" = some ks1 ∧ "one.js" ∈ ks1) ∧
    (∃ ks2, epOutKeys (createJoinConfig (jsOnlyCfg []
        [("app/a.js", JoinToCfg.table witnessEntryOne),
         ("app/b.js", JoinToCfg.table witnessEntryTwo)]) ["app"]).1
          "javascripts" "app/b.js" = some ks2 ∧ "one.js" ∉ ks2) ∧
    JoinWarning.outputAlreadyClaimed "one.js" "javascripts" "app/b.js" ∈
      (createJoinConfig (jsOnlyCfg []
        [("app/a.js", JoinToCfg.table witnessEntryOne),
         ("app/b.js", JoinToCfg.table witnessEntryTwo)]) ["app"]).2 := by
  have h := createJoinConfig_conflict_resolution.2 ["app"] [] witnessEntryOne
    witnessEntryTwo "app/a.js" "app/b.js" "one.js" (by decide) (by decide)
    (by decide) (by decide) (by decide) (by decide) (by decide) (by decide) (by decide)
  exact ⟨by decide, h.1, h.2.1, h.2.2⟩

/-- The configuration of the stylesheet-inheritance counterexample:
javascripts has a default `joinTo` of `app.js`, stylesheets defines none. -/
def inheritCexCfg : CfgFiles :=
  [("javascripts", { joinTo := some (JoinToCfg.single "app.js"), entryPoints := none }),
   ("stylesheets", { joinTo := none, entryPoints := none })]

/-- C5 counterexample.  With a javascripts `joinTo` of `app.js` and a
stylesheets section defining none, resolution leaves the stylesheets type
with an empty join table — it inherits nothing — while the `templates`
type is the one that receives the javascripts `joinTo`.  The claim that
the stylesheet type inherits the script type's `joinTo` is false. -/
theorem createJoinConfig_stylesheets_no_inherit_cex :
    epOutKeys (createJoinConfig inheritCexCfg []).1 "stylesheets" "*" = some [] ∧
    (createJoinConfig inheritCexCfg []).1.lookup "stylesheets" = some [("*", [])] ∧
    epOutKeys (createJoinConfig inheritCexCfg []).1 "templates" "*" = some ["app.js"] :=
  ⟨rfl, rfl, rfl⟩

/-- C5 (amended).  At resolution time, when the javascripts type defines a
default `joinTo` it is the `templates` type — not the stylesheet type —
that inherits it when it defines none of its own: a missing templates
section is created carrying the javascripts `joinTo` while an
unconfigured stylesheets section resolves to an empty join table, and a
templates section with its own `joinTo` keeps it.  The copy happens once,
inside the pure resolution function. -/
theorem createJoinConfig_templates_inherit :
    (∀ (jt : JoinToCfg) (watched : List String),
      (createJoinConfig
        [("javascripts", { joinTo := some jt, entryPoints := none }),
         ("stylesheets", { joinTo := none, entryPoints := none })] watched).1 =
        [("javascripts", [("*", normalizeJoinConfig (some jt))]),
         ("stylesheets", [("*", [])]),
         ("templates", [("*", normalizeJoinConfig (some jt))])]) ∧
    (∀ (jt jt2 : JoinToCfg) (watched : List String),
      (createJoinConfig
        [("javascripts", { joinTo := some jt, entryPoints := none }),
         ("templates", { joinTo := some jt2, entryPoints := none })] watched).1 =
        [("javascripts", [("*", normalizeJoinConfig (some jt))]),
         ("templates", [("*", normalizeJoinConfig (some jt2))])]) :=
  ⟨fun _ _ => rfl, fun _ _ _ => rfl⟩
